import Mathlib

/-!
Verification of the cloudlets policy export code (package `cloudlets`,
file `create_policy.go`) and the DNS template helper `checkForResource`.

The Go code is shallowly embedded: every API client call becomes an explicit
function parameter (offset ↦ page of results, origin ID ↦ activation list,
and so on), each unbounded `for {}` pagination loop becomes a fuel-indexed
recursion whose `none` result means the fuel ran out, and Go `int64` values
become `Int`.  Functions additionally log the request offsets they issue so
that "exactly k page requests" is a provable statement.
-/

instance {ε α : Type _} [DecidableEq ε] [DecidableEq α] :
    DecidableEq (Except ε α)
  | .error e, .error f =>
    if h : e = f then .isTrue (h ▸ rfl)
    else .isFalse fun hc => h (Except.error.inj hc)
  | .error _, .ok _ => .isFalse fun hc => Except.noConfusion hc
  | .ok _, .error _ => .isFalse fun hc => Except.noConfusion hc
  | .ok a, .ok b =>
    if h : a = b then .isTrue (h ▸ rfl)
    else .isFalse fun hc => h (Except.ok.inj hc)

namespace Cloudlets

/-- `cloudlets.PolicyActivationNetwork`: the two activation networks,
`"staging"` and `"prod"` in the Go client. -/
inductive PolicyActivationNetwork where
  | staging
  | production
deriving DecidableEq, Repr

/-- The string key used for each network in `createPolicy`
(`"staging"` for staging, `"prod"` for production). -/
def PolicyActivationNetwork.key : PolicyActivationNetwork → String
  | .staging => "staging"
  | .production => "prod"

/-- `cloudlets.PolicyInfo` (only the `Version` field is read by this code). -/
structure PolicyInfo where
  version : Int
deriving DecidableEq, Repr

/-- `cloudlets.PropertyInfo` (only the `Name` field is read by this code). -/
structure PropertyInfo where
  name : String
deriving DecidableEq, Repr

/-- `cloudlets.PolicyActivation`: one raw activation history entry. -/
structure PolicyActivation where
  network : PolicyActivationNetwork
  policyInfo : PolicyInfo
  propertyInfo : PropertyInfo
deriving DecidableEq, Repr

/-- `cloudlets.Policy` (the fields read by `create_policy.go`). -/
structure Policy where
  policyID : Int
  groupID : Int
  name : String
  cloudletCode : String
  activations : List PolicyActivation
deriving DecidableEq, Repr

/-- `TFPolicyActivationData` from `create_policy.go`. -/
structure TFPolicyActivationData where
  policyID : Int
  version : Int
  properties : List String
deriving DecidableEq, Repr

/-- One step of the loop body of `getActiveVersionAndProperties`
(lines 344-350): entries on another network are skipped; a matching entry
overwrites `version` with its `PolicyInfo.Version` and appends its
`PropertyInfo.Name` to `associatedProperties`. -/
def activeStep (network : PolicyActivationNetwork) (acc : Int × List String)
    (activation : PolicyActivation) : Int × List String :=
  if activation.network == network then
    (activation.policyInfo.version, acc.2 ++ [activation.propertyInfo.name])
  else acc

/-- `getActiveVersionAndProperties` (lines 341-359): fold the activation
history with `activeStep` starting from `version = 0` and a nil property
list; return `none` exactly when `associatedProperties` stayed nil. -/
def getActiveVersionAndProperties (policy : Policy)
    (network : PolicyActivationNetwork) : Option TFPolicyActivationData :=
  let acc := policy.activations.foldl (activeStep network) (0, [])
  if acc.2 = [] then none
  else some ⟨policy.policyID, acc.1, acc.2⟩

/-- The activation entries of `policy` on `network`, in listing order
(the entries not skipped by the loop in `getActiveVersionAndProperties`). -/
def matchingActivations (policy : Policy) (network : PolicyActivationNetwork) :
    List PolicyActivation :=
  policy.activations.filter (fun a => a.network == network)

/-- The `PolicyActivations` map assembled by `createPolicy` (lines 147-153),
as an insertion-ordered association list: the `"staging"` key is written
first when staging has a record, then the `"prod"` key. -/
def policyActivations (policy : Policy) : List (String × TFPolicyActivationData) :=
  (match getActiveVersionAndProperties policy .staging with
   | some a => [("staging", a)]
   | none => []) ++
  (match getActiveVersionAndProperties policy .production with
   | some a => [("prod", a)]
   | none => [])

/-- The page size used by both pagination loops (`pageSize, offset := 1000, 0`). -/
def pageSize : Nat := 1000

/-- Errors of `findPolicyByName`: a propagated `ListPolicies` error, or the
`policy does not exist` error built after an exhausted listing. -/
inductive FindPolicyError where
  | fetch (msg : String)
  | notFound (name : String)
deriving DecidableEq, Repr

/-- The loop of `findPolicyByName` (lines 282-300) over an abstract
`ListPolicies` capability `pages : offset ↦ page or error`, indexed by fuel.
Returns the list of offsets requested, and `none` when the fuel ran out
before the loop finished, otherwise the Go result: the first policy of the
current page whose `Name` equals `name` (case-sensitive `==`), an early
propagated fetch error, or the not-found error once a short page is seen. -/
def findPolicyPages (pages : Nat → Except String (List Policy)) (name : String) :
    Nat → Nat → List Nat × Option (Except FindPolicyError Policy)
  | 0, _ => ([], none)
  | fuel + 1, offset =>
    match pages offset with
    | .error e => ([offset], some (.error (.fetch e)))
    | .ok policies =>
      match policies.find? (fun p => p.name == name) with
      | some p => ([offset], some (.ok p))
      | none =>
        if policies.length < pageSize then
          ([offset], some (.error (.notFound name)))
        else
          let r := findPolicyPages pages name fuel (offset + pageSize)
          (offset :: r.1, r.2)

/-- `findPolicyByName` (lines 279-302): run the pagination loop from
`offset = 0`. -/
def findPolicyByName (pages : Nat → Except String (List Policy)) (name : String)
    (fuel : Nat) : List Nat × Option (Except FindPolicyError Policy) :=
  findPolicyPages pages name fuel 0

/-- `cloudlets.MatchRules` entries as seen by `getOriginIDs`: a rule is
either a `*cloudlets.MatchRuleALB` (of which only
`ForwardSettings.OriginID` is read) or some other concrete rule type,
remembered by its type name (the `%T` of line 239). -/
inductive MatchRule where
  | alb (originID : String)
  | other (tag : String)
deriving DecidableEq, Repr

/-- `cloudlets.PolicyVersion` (the fields read by `create_policy.go`). -/
structure PolicyVersion where
  policyID : Int
  version : Int
  description : String
  matchRuleFormat : String
  matchRules : List MatchRule
deriving DecidableEq, Repr

/-- Errors of `getLatestPolicyVersion`: a propagated API error (page fetch or
final `GetPolicyVersion` fetch), or the
`no policy versions found for given policy` error. -/
inductive VersionError where
  | api (msg : String)
  | noVersions
deriving DecidableEq, Repr

/-- The loop body update of `getLatestPolicyVersion` (lines 321-325):
`if v.Version > version { version = v.Version }`. -/
def verStep (acc : Int) (v : PolicyVersion) : Int :=
  if acc < v.version then v.version else acc

/-- The loop of `getLatestPolicyVersion` (lines 307-330) over an abstract
`ListPolicyVersions` capability `pages : offset ↦ page or error`, indexed by
fuel.  Returns the offsets requested and, when the loop finished within the
fuel, either the selected version number or the error the Go loop returns:
the propagated fetch error, or `noVersions` as soon as a fetched page is
empty. -/
def getLatestVersionLoop (pages : Nat → Except String (List PolicyVersion)) :
    Nat → Nat → Int → List Nat × Option (Except VersionError Int)
  | 0, _, _ => ([], none)
  | fuel + 1, offset, version =>
    match pages offset with
    | .error e => ([offset], some (.error (.api e)))
    | .ok versions =>
      if versions.length = 0 then ([offset], some (.error .noVersions))
      else
        let version := versions.foldl verStep version
        if versions.length < pageSize then ([offset], some (.ok version))
        else
          let r := getLatestVersionLoop pages fuel (offset + pageSize) version
          (offset :: r.1, r.2)

/-- Lift the result of the final `GetPolicyVersion` call into the result of
`getLatestPolicyVersion` (lines 331-338): an error is propagated, a body is
returned as-is. -/
def liftDetail (r : Except String PolicyVersion) : Except VersionError PolicyVersion :=
  match r with
  | .error e => .error (.api e)
  | .ok pv => .ok pv

/-- `getLatestPolicyVersion` (lines 304-339): run the version-list loop from
`offset = 0` with `version = 0`, then issue one `GetPolicyVersion` call
(`detail`) for the selected version and return its full body. -/
def getLatestPolicyVersion (pages : Nat → Except String (List PolicyVersion))
    (detail : Int → Except String PolicyVersion) (fuel : Nat) :
    List Nat × Option (Except VersionError PolicyVersion) :=
  let r := getLatestVersionLoop pages fuel 0 0
  match r.2 with
  | none => (r.1, none)
  | some (.error e) => (r.1, some (.error e))
  | some (.ok version) => (r.1, some (liftDetail (detail version)))

/-- `cloudlets.LoadBalancerVersion` (the fields this code reads). -/
structure LoadBalancerVersion where
  originID : String
  version : Int
deriving DecidableEq, Repr

/-- `cloudlets.LoadBalancerActivation` (the fields this code reads).
`network` holds a `LoadBalancerActivationNetwork` string
(`"PRODUCTION"` or `"STAGING"`). -/
structure LoadBalancerActivation where
  originID : String
  network : String
  activatedDate : String
  version : Int
deriving DecidableEq, Repr

/-- `cloudlets.LoadBalancerActivationNetworkProduction`. -/
def LoadBalancerActivationNetworkProduction : String := "PRODUCTION"

/-- `cloudlets.LoadBalancerActivationNetworkStaging`. -/
def LoadBalancerActivationNetworkStaging : String := "STAGING"

/-- The rule loop of `getOriginIDs` (lines 236-245): walk the match rules,
failing on the first rule that is not a `MatchRuleALB`, and build the key
set of the deduplicating `originIDs` map in insertion order (a key is added
when the rule's `ForwardSettings.OriginID` is non-empty and not yet
present). -/
def collectOriginIDs : List MatchRule → List String → Except String (List String)
  | [], acc => .ok acc
  | .other tag :: _, _ =>
    .error ("match rule type is not a MatchRuleALB: " ++ tag)
  | .alb originID :: rest, acc =>
    collectOriginIDs rest
      (if originID = "" ∨ originID ∈ acc then acc else acc ++ [originID])

/-- `getOriginIDs` (lines 233-251).  The final
`for originID := range originIDs` loop reads the Go map keys back in map
iteration order, which the Go specification leaves unspecified and which
varies between runs; that order is therefore an explicit parameter
`order`, which a run of the program instantiates with some permutation of
the key set. -/
def getOriginIDs (rules : List MatchRule) (order : List String → List String) :
    Except String (List String) :=
  match collectOriginIDs rules [] with
  | .error e => .error e
  | .ok keys => .ok (order keys)

/-- The inner loop body of `getLoadBalancers` (lines 220-225):
`if version.Version > ver { ver, loadBalancerVersion = version.Version, version }`. -/
def lbStep (acc : Int × Option LoadBalancerVersion) (v : LoadBalancerVersion) :
    Int × Option LoadBalancerVersion :=
  if acc.1 < v.version then (v.version, some v) else acc

/-- The per-origin selection of `getLoadBalancers`: the version kept by the
`ver`/`loadBalancerVersion` scan, appended only when `ver > 0`
(lines 218-228). -/
def pickLoadBalancerVersion (versions : List LoadBalancerVersion) :
    Option LoadBalancerVersion :=
  let st := versions.foldl lbStep (0, none)
  if 0 < st.1 then st.2 else none

/-- `getLoadBalancers` (lines 208-231) over an abstract
`ListLoadBalancerVersions` capability. -/
def getLoadBalancers
    (lbVersions : String → Except String (List LoadBalancerVersion)) :
    List String → Except String (List LoadBalancerVersion)
  | [] => .ok []
  | originID :: rest =>
    match lbVersions originID with
    | .error e => .error e
    | .ok versions =>
      match getLoadBalancers lbVersions rest with
      | .error e => .error e
      | .ok tl =>
        .ok ((match pickLoadBalancerVersion versions with
              | some lb => [lb]
              | none => []) ++ tl)

/-- Swap the entries at positions `i` and `j` of a list (what one
`sort.Slice` swap does). -/
def swapAt (l : List α) (i j : Nat) : List α :=
  match l.get? i, l.get? j with
  | some x, some y => (l.set i y).set j x
  | _, _ => l

/-- The inner `for j := i; j > a && less(j, j-1); j--` loop of the
insertion sort run by Go `sort.Slice` on short slices.  The comparator of
line 270 reads `activations` — the unfiltered slice — so its value depends
only on the positions `i, j` and never on the contents of the slice being
sorted; the swap decisions are therefore exactly these. -/
def insertInner (less : Nat → Nat → Bool) : List α → Nat → List α
  | l, 0 => l
  | l, j + 1 =>
    if less (j + 1) j then insertInner less (swapAt l (j + 1) j) j else l

/-- Go `sort.Slice` (insertion sort, for slices shorter than 12) applied to
a comparator that depends only on positions. -/
def sortSliceByPos (less : Nat → Nat → Bool) (l : List α) : List α :=
  (List.range l.length).foldl (fun acc i => insertInner less acc i) l

/-- `activations[i].ActivatedDate` for the comparator of line 270 (the
comparator is only ever invoked at positions below the length of the slice
being sorted, which is at most the length of `activations`). -/
def activatedDateAt (l : List LoadBalancerActivation) (i : Nat) : String :=
  match l.get? i with
  | some a => a.activatedDate
  | none => ""

/-- Lexicographic strict order on character lists (Go compares strings
byte-lexicographically; on the ASCII date strings involved this agrees
with code-point order). -/
def charListLt : List Char → List Char → Bool
  | _, [] => false
  | [], _ :: _ => true
  | a :: as, b :: bs =>
    if a < b then true else if b < a then false else charListLt as bs

/-- Go string comparison `s > t`. -/
def stringGt (s t : String) : Bool := charListLt t.data s.data

/-- `getApplicationLoadBalancerActivation` (lines 253-277): filter the
listed activations to the requested network, sort with
`sort.Slice(filteredActivations, func(i, j) { return
activations[i].ActivatedDate > activations[j].ActivatedDate })` — note the
comparator indexes `activations`, the unfiltered slice — and return the
first element of the sorted slice, or `none` when nothing matched. -/
def getApplicationLoadBalancerActivation
    (listActivations : String → Except String (List LoadBalancerActivation))
    (originID network : String) :
    Except String (Option LoadBalancerActivation) :=
  match listActivations originID with
  | .error e => .error e
  | .ok activations =>
    let filteredActivations := activations.filter (fun a => a.network == network)
    let less : Nat → Nat → Bool := fun i j =>
      stringGt (activatedDateAt activations i) (activatedDateAt activations j)
    let sorted := sortSliceByPos less filteredActivations
    match sorted.head? with
    | some a => .ok (some a)
    | none => .ok none

/-- `getLoadBalancerActivations` (lines 186-206): for each origin ID, in
order, look up the production activation and then the staging activation,
appending whichever are present; any error aborts. -/
def getLoadBalancerActivations
    (listActivations : String → Except String (List LoadBalancerActivation)) :
    List String → Except String (List LoadBalancerActivation)
  | [] => .ok []
  | originID :: rest =>
    match getApplicationLoadBalancerActivation listActivations originID
        LoadBalancerActivationNetworkProduction with
    | .error e => .error e
    | .ok productionAct =>
      match getApplicationLoadBalancerActivation listActivations originID
          LoadBalancerActivationNetworkStaging with
      | .error e => .error e
      | .ok stagingAct =>
        match getLoadBalancerActivations listActivations rest with
        | .error e => .error e
        | .ok tl =>
          .ok ((match productionAct with | some a => [a] | none => []) ++
               (match stagingAct with | some a => [a] | none => []) ++ tl)

/-- The `supportedCloudlets` set (lines 49-58), as the list of its keys. -/
def supportedCloudlets : List String :=
  ["ALB", "AP", "AS", "CD", "ER", "FR", "IG", "VP"]

/-- `TFPolicyData` (lines 25-36).  `PolicyActivations` is kept as the
insertion-ordered association list produced by `policyActivations`;
`Section` is renamed `sectionName` (Lean keyword). -/
structure TFPolicyData where
  name : String
  cloudletCode : String
  description : String
  groupID : Int
  matchRuleFormat : String
  matchRules : List MatchRule
  tfPolicyActivations : List (String × TFPolicyActivationData)
  loadBalancers : List LoadBalancerVersion
  loadBalancerActivations : List LoadBalancerActivation
  sectionName : String
deriving DecidableEq, Repr

/-- The errors `createPolicy` can return, by the named error each wraps
with `fmt.Errorf("%w: %s", ...)`:
`ErrFetchingPolicy` (line 124), `ErrCloudletTypeNotSupported` carrying the
unsupported type string (line 128), `ErrFetchingVersion` (lines 141, 159,
164, 169), and a template-processor failure returned unwrapped (line 178). -/
inductive CreatePolicyError where
  | fetchingPolicy (inner : FindPolicyError)
  | fetchingVersion (inner : VersionError)
  | cloudletTypeNotSupported (cloudletCode : String)
  | saveFiles (msg : String)
deriving DecidableEq, Repr

/-- The `cloudlets.Cloudlets` client methods `createPolicy` calls, as
abstract functions (list requests indexed by the varying request fields). -/
structure CloudletsClient where
  listPolicies : Nat → Except String (List Policy)
  listPolicyVersions : Int → Nat → Except String (List PolicyVersion)
  getPolicyVersion : Int → Int → Except String PolicyVersion
  listLoadBalancerVersions : String → Except String (List LoadBalancerVersion)
  listLoadBalancerActivations : String → Except String (List LoadBalancerActivation)

/-- `createPolicy` (lines 115-184).  `proc` is the template processor
(`templateProcessor.ProcessTemplates`); the first component of the result
logs the data object of each `ProcessTemplates` call, so `[]` on the error
paths states that the processor was never invoked.  `mapOrder` is the Go
map iteration order used inside `getOriginIDs` (see there); `fuel` bounds
the two pagination loops, and a `none` result means a loop ran past the
fuel. -/
def createPolicy (client : CloudletsClient) (policyName sectionName : String)
    (proc : TFPolicyData → Except String Unit)
    (mapOrder : List String → List String) (fuel : Nat) :
    Option (List TFPolicyData × Except CreatePolicyError Unit) :=
  match (findPolicyByName client.listPolicies policyName fuel).2 with
  | none => none
  | some (.error e) => some ([], .error (.fetchingPolicy e))
  | some (.ok policy) =>
    if policy.cloudletCode ∈ supportedCloudlets then
      match (getLatestPolicyVersion (client.listPolicyVersions policy.policyID)
              (client.getPolicyVersion policy.policyID) fuel).2 with
      | none => none
      | some (.error e) => some ([], .error (.fetchingVersion e))
      | some (.ok policyVersion) =>
        let base : TFPolicyData :=
          { name := policy.name
            cloudletCode := policy.cloudletCode
            description := policyVersion.description
            groupID := policy.groupID
            matchRuleFormat := policyVersion.matchRuleFormat
            matchRules := policyVersion.matchRules
            tfPolicyActivations := policyActivations policy
            loadBalancers := []
            loadBalancerActivations := []
            sectionName := sectionName }
        if policy.cloudletCode = "ALB" then
          match getOriginIDs policyVersion.matchRules mapOrder with
          | .error e => some ([], .error (.fetchingVersion (.api e)))
          | .ok originIDs =>
            match getLoadBalancers client.listLoadBalancerVersions originIDs with
            | .error e => some ([], .error (.fetchingVersion (.api e)))
            | .ok lbs =>
              match getLoadBalancerActivations client.listLoadBalancerActivations
                  originIDs with
              | .error e => some ([], .error (.fetchingVersion (.api e)))
              | .ok lbActs =>
                let data := { base with
                              loadBalancers := lbs
                              loadBalancerActivations := lbActs }
                match proc data with
                | .error e => some ([data], .error (.saveFiles e))
                | .ok _ => some ([data], .ok ())
        else
          match proc base with
          | .error e => some ([base], .error (.saveFiles e))
          | .ok _ => some ([base], .ok ())
    else
      some ([], .error (.cloudletTypeNotSupported policy.cloudletCode))

/-- Modelled from the spec: one `akamai_cloudlets_policy_activation`
resource of the rendered policy file.  The template `policy.tmpl` is not
among the provided sources (only its golden output
`testdata/with_activations_and_match_rules/policy.tf` and
`createPolicy` are). -/
structure ActivationResource where
  resourceName : String
  policyID : Int
  network : String
  version : Int
  properties : List String
  dependsOn : List String
deriving DecidableEq, Repr

/-- Modelled from the spec: the activation statements `policy.tmpl` renders
from the `PolicyActivations` map.  Per the spec (§8 end-to-end scenario)
and the golden file, one resource is rendered per present network key —
the staging resource first, then the prod resource, the latter declaring
`depends_on` on the staging resource when a staging resource is present. -/
def renderActivationResources (acts : List (String × TFPolicyActivationData)) :
    List ActivationResource :=
  (match acts.lookup "staging" with
   | some a =>
     [{ resourceName := "policy_activation_staging"
        policyID := a.policyID
        network := "staging"
        version := a.version
        properties := a.properties
        dependsOn := [] }]
   | none => []) ++
  (match acts.lookup "prod" with
   | some a =>
     [{ resourceName := "policy_activation_prod"
        policyID := a.policyID
        network := "prod"
        version := a.version
        properties := a.properties
        dependsOn :=
          if (acts.lookup "staging").isSome then ["policy_activation_staging"]
          else [] }]
   | none => [])

end Cloudlets

namespace Dns

/-- One resource of the local Terraform state
(`r.Type` is renamed `rtype`: `Type` is a Lean keyword). -/
structure TfResource where
  rtype : String
  name : String
deriving DecidableEq, Repr

/-- The parsed Terraform state (`tfState.Resources`). -/
structure TfState where
  resources : List TfResource
deriving DecidableEq, Repr

/-- The state visible to `checkForResource`: the cached package-level
`tfState` when one is already loaded, otherwise the outcome of
`readTfState` — the reader itself lives outside the provided sources and
is abstracted as its result `readResult`. -/
def loadedState (cached : Option TfState) (readResult : Except String TfState) :
    Option TfState :=
  match cached with
  | some st => some st
  | none =>
    match readResult with
    | .ok st => some st
    | .error _ => none

/-- `checkForResource` (`template_processing.go` lines 71-86): when no
state is available (read or parse failure included) report `false` rather
than an error; otherwise scan the state for a resource with exactly the
requested type and name. -/
def checkForResource (cached : Option TfState) (readResult : Except String TfState)
    (rtype name : String) : Bool :=
  match loadedState cached readResult with
  | none => false
  | some st => st.resources.any (fun r => r.rtype == rtype && r.name == name)

end Dns

namespace Cloudlets

/-- A page-filling policy whose name is not the one searched for. -/
def fillerPolicy : Policy := ⟨1, 10, "other_policy", "ER", []⟩

/-- The policy searched for in the pagination witness. -/
def targetPolicy : Policy := ⟨1234567, 20, "test_policy", "ER", []⟩

/-- A two-page listing: a full first page of fillers, then a short page
holding the target. -/
def pagesTwo : Nat → Except String (List Policy) :=
  fun offset =>
    if offset = 0 then .ok (List.replicate pageSize fillerPolicy)
    else if offset = pageSize then .ok [targetPolicy]
    else .ok []

/-- A listing whose every page is empty. -/
def pagesAllEmpty : Nat → Except String (List Policy) := fun _ => .ok []

/-- A version-list entry with `Version = 1`. -/
def versionOne : PolicyVersion := ⟨5, 1, "", "", []⟩

/-- A version listing holding exactly `pageSize` versions: the first page
is full, the page after it is empty. -/
def vpagesFullThenEmpty : Nat → Except String (List PolicyVersion) :=
  fun offset =>
    if offset = 0 then .ok (List.replicate pageSize versionOne) else .ok []

/-- A `GetPolicyVersion` capability that succeeds on every version. -/
def detailAlwaysOk : Int → Except String PolicyVersion :=
  fun v => .ok ⟨5, v, "full body", "1.0", []⟩

/-- The single short page of the version-listing witness: versions 3 and 7. -/
def vpagesShortList : Nat → List PolicyVersion :=
  fun _ => [⟨9, 3, "a", "1.0", []⟩, ⟨9, 7, "b", "1.0", []⟩]

/-- A one-page version listing with versions 3 and 7. -/
def vpagesShort : Nat → Except String (List PolicyVersion) :=
  fun offset => .ok (vpagesShortList offset)

/-- A staging activation entry with version 2 and property `p0`. -/
def activationHigh : PolicyActivation := ⟨.staging, ⟨2⟩, ⟨"p0"⟩⟩

/-- A staging activation entry with version 1 and property `p1`, listed
after `activationHigh`. -/
def activationLow : PolicyActivation := ⟨.staging, ⟨1⟩, ⟨"p1"⟩⟩

/-- A policy whose staging history lists version 2 before version 1. -/
def twoStagingPolicy : Policy := ⟨7, 1, "pol", "ER", [activationHigh, activationLow]⟩

/-- The policy of the spec §8 end-to-end scenario: two staging entries
(both version 2, properties `prp_0` and `prp_1`) and one prod entry
(version 1, property `prp_0`). -/
def scenarioPolicy : Policy :=
  ⟨2, 12345, "test_policy_export", "ER",
   [⟨.staging, ⟨2⟩, ⟨"prp_0"⟩⟩, ⟨.staging, ⟨2⟩, ⟨"prp_1"⟩⟩,
    ⟨.production, ⟨1⟩, ⟨"prp_0"⟩⟩]⟩

/-- ALB match rules naming two distinct origin IDs. -/
def albRulesTwoOrigins : List MatchRule := [.alb "origin_a", .alb "origin_b"]

/-- Load-balancer versions for the two origins. -/
def lbVersionsTwoOrigins : String → Except String (List LoadBalancerVersion) :=
  fun originID =>
    if originID = "origin_a" then .ok [⟨"origin_a", 1⟩]
    else if originID = "origin_b" then .ok [⟨"origin_b", 2⟩]
    else .ok []

/-- A policy whose `CloudletCode` is outside the supported set. -/
def unsupportedPolicy : Policy := ⟨1, 1, "cd_policy", "CD2", []⟩

/-- A client whose policy listing returns only `unsupportedPolicy`. -/
def unsupportedClient : CloudletsClient :=
  { listPolicies := fun _ => .ok [unsupportedPolicy]
    listPolicyVersions := fun _ _ => .ok []
    getPolicyVersion := fun _ _ => .error "unused"
    listLoadBalancerVersions := fun _ => .ok []
    listLoadBalancerActivations := fun _ => .ok [] }

/-- A production activation, listed first. -/
def albProdActivation : LoadBalancerActivation :=
  ⟨"lb_origin", "PRODUCTION", "2021-03-01T00:00:00Z", 1⟩

/-- The older staging activation. -/
def albStaleStaging : LoadBalancerActivation :=
  ⟨"lb_origin", "STAGING", "2020-01-01T00:00:00Z", 1⟩

/-- The newest staging activation, listed last. -/
def albNewestStaging : LoadBalancerActivation :=
  ⟨"lb_origin", "STAGING", "2022-06-01T00:00:00Z", 2⟩

/-- An activation listing on which filtering shifts the indices: entry 0 is
on production, the two staging entries sit at indices 1 and 2. -/
def albActivationsList : String → Except String (List LoadBalancerActivation) :=
  fun _ => .ok [albProdActivation, albStaleStaging, albNewestStaging]

/-!  Theorems.  -/

/-- Folding the activation history with `activeStep` yields the version of
the last matching entry (with the accumulator's version as default) paired
with the accumulated property names of the matching entries, in order. -/
theorem activeStep_foldl (network : PolicyActivationNetwork) :
    ∀ (l : List PolicyActivation) (v : Int) (ps : List String),
      l.foldl (activeStep network) (v, ps) =
        (((l.filter (fun a => a.network == network)).map
            (fun a => a.policyInfo.version)).getLastD v,
         ps ++ (l.filter (fun a => a.network == network)).map
            (fun a => a.propertyInfo.name))
  | [], v, ps => by simp
  | a :: l, v, ps => by
    by_cases h : a.network == network
    · rw [List.foldl_cons]
      have h1 : activeStep network (v, ps) a =
          (a.policyInfo.version, ps ++ [a.propertyInfo.name]) := by
        simp [activeStep, h]
      rw [h1, activeStep_foldl network l _ _, List.filter_cons, if_pos h]
      simp only [List.map_cons, List.getLastD_cons, List.append_assoc,
        List.singleton_append]
    · rw [List.foldl_cons]
      have h1 : activeStep network (v, ps) a = (v, ps) := by
        simp [activeStep, h]
      rw [h1, activeStep_foldl network l v ps, List.filter_cons, if_neg h]

/-- `getActiveVersionAndProperties` returns `none` exactly on an empty
match, and otherwise the last matching version with all matching property
names. -/
theorem getActive_eq (policy : Policy) (network : PolicyActivationNetwork) :
    getActiveVersionAndProperties policy network =
      if matchingActivations policy network = [] then none
      else some ⟨policy.policyID,
            ((matchingActivations policy network).map
               (fun a => a.policyInfo.version)).getLastD 0,
            (matchingActivations policy network).map
               (fun a => a.propertyInfo.name)⟩ := by
  have hfold := activeStep_foldl network policy.activations 0 []
  simp only [getActiveVersionAndProperties, matchingActivations, hfold,
    List.nil_append]
  by_cases h : policy.activations.filter (fun a => a.network == network) = []
  · simp [h]
  · rw [if_neg, if_neg h]
    simp [List.map_eq_nil_iff, h]

/-- Claim C4, counterexample: on a policy whose staging history lists
version 2 before version 1, the folded record carries version 1 — the
version of the last matching entry — although a matching entry with the
strictly larger version 2 exists, so the record's `Version` is not the
maximum version among the matching entries. -/
theorem getActive_version_not_max :
    getActiveVersionAndProperties twoStagingPolicy .staging =
        some ⟨7, 1, ["p0", "p1"]⟩ ∧
    activationHigh ∈ matchingActivations twoStagingPolicy .staging ∧
    activationHigh.policyInfo.version = 2 ∧
    ¬ ((2 : Int) ≤ 1) := by
  refine ⟨by decide, by decide, by decide, by decide⟩

/-- Claim C4 (amended): for every policy whose activation history contains
at least one entry for the given network, `getActiveVersionAndProperties`
folds all entries of that network into one record whose `Version` is the
version of the **last** matching entry in listing order (not the maximum)
and whose `Properties` collects the associated property names of those
entries, in order. -/
theorem getActive_folds_matching_entries
    (policy : Policy) (network : PolicyActivationNetwork)
    (h : matchingActivations policy network ≠ []) :
    getActiveVersionAndProperties policy network =
      some ⟨policy.policyID,
            ((matchingActivations policy network).map
               (fun a => a.policyInfo.version)).getLastD 0,
            (matchingActivations policy network).map
               (fun a => a.propertyInfo.name)⟩ := by
  rw [getActive_eq, if_neg h]

/-- Claim C4 witness: the amended theorem applied to `twoStagingPolicy`. -/
theorem getActive_folds_matching_entries_witness :
    getActiveVersionAndProperties twoStagingPolicy .staging =
      some ⟨7, 1, ["p0", "p1"]⟩ := by
  have h := getActive_folds_matching_entries twoStagingPolicy .staging (by decide)
  rw [h]
  decide

/-- Claim C5: `getActiveVersionAndProperties` yields exactly one record,
combining the property names of all entries matching the network, when at
least one entry matches, and yields `none` — absence, not an error — when
zero entries match; accordingly `createPolicy` omits the `"staging"`
(resp. `"prod"`) key from `PolicyActivations` when staging (resp.
production) has no matching entry. -/
theorem getActive_none_and_key_omitted :
    ∀ (policy : Policy) (network : PolicyActivationNetwork),
      (matchingActivations policy network = [] →
        getActiveVersionAndProperties policy network = none) ∧
      (matchingActivations policy network ≠ [] →
        ∃ r, getActiveVersionAndProperties policy network = some r ∧
          r.properties = (matchingActivations policy network).map
            (fun a => a.propertyInfo.name)) ∧
      (matchingActivations policy .staging = [] →
        "staging" ∉ (policyActivations policy).map Prod.fst) ∧
      (matchingActivations policy .production = [] →
        "prod" ∉ (policyActivations policy).map Prod.fst) := by
  intro policy network
  refine ⟨fun h => by rw [getActive_eq, if_pos h], fun h => ?_, fun h => ?_, fun h => ?_⟩
  · exact ⟨_, by rw [getActive_eq, if_neg h], rfl⟩
  · have hnone : getActiveVersionAndProperties policy .staging = none := by
      rw [getActive_eq, if_pos h]
    cases hp : getActiveVersionAndProperties policy .production with
    | none => simp [policyActivations, hnone, hp]
    | some a => simp [policyActivations, hnone, hp]
  · have hnone : getActiveVersionAndProperties policy .production = none := by
      rw [getActive_eq, if_pos h]
    cases hp : getActiveVersionAndProperties policy .staging with
    | none => simp [policyActivations, hnone, hp]
    | some a => simp [policyActivations, hnone, hp]

/-- Claim C5 witness: on the scenario policy restricted to a network with
no entries, the aggregator yields `none`; on `twoStagingPolicy` (staging
entries only) the `"prod"` key is omitted. -/
theorem getActive_none_and_key_omitted_witness :
    getActiveVersionAndProperties twoStagingPolicy .production = none ∧
    "prod" ∉ (policyActivations twoStagingPolicy).map Prod.fst := by
  have h := getActive_none_and_key_omitted twoStagingPolicy .production
  exact ⟨h.1 (by decide), h.2.2.2 (by decide)⟩

/-- Claim C6: for the spec §8 scenario policy — two staging activation
entries (both version 2, properties `prp_0`, `prp_1`) and one prod entry
(version 1, property `prp_0`) — the rendered output contains exactly two
activation resources: the staging resource with version 2 and both
properties, and the prod resource with version 1 and the single property,
the latter declaring `depends_on` on the staging resource. -/
theorem rendered_activation_resources_scenario :
    renderActivationResources (policyActivations scenarioPolicy) =
      [⟨"policy_activation_staging", 2, "staging", 2, ["prp_0", "prp_1"], []⟩,
       ⟨"policy_activation_prod", 2, "prod", 1, ["prp_0"],
        ["policy_activation_staging"]⟩] := by
  decide

/-- Claim C7 (code-bug evidence): `getOriginIDs` deduplicates the origin
IDs into a Go map and reads the keys back in map iteration order, which Go
does not fix across runs.  For rules naming two origins, both
`["origin_a", "origin_b"]` and its permutation `["origin_b", "origin_a"]`
are admissible outputs on identical input, and `getLoadBalancers` maps
them to different `LoadBalancers` slices — the assembled `TFPolicyData` is
not a function of the API responses alone. -/
theorem getOriginIDs_order_dependent :
    collectOriginIDs albRulesTwoOrigins [] = .ok ["origin_a", "origin_b"] ∧
    getOriginIDs albRulesTwoOrigins id = .ok ["origin_a", "origin_b"] ∧
    getOriginIDs albRulesTwoOrigins List.reverse =
      .ok ["origin_b", "origin_a"] ∧
    (["origin_b", "origin_a"] : List String).Perm ["origin_a", "origin_b"] ∧
    getLoadBalancers lbVersionsTwoOrigins ["origin_a", "origin_b"] ≠
      getLoadBalancers lbVersionsTwoOrigins ["origin_b", "origin_a"] := by
  refine ⟨by decide, by decide, by decide, by decide, by decide⟩

/-- Claim C8: whenever the policy found by name has a `CloudletCode`
outside the supported set, `createPolicy` returns the
`ErrCloudletTypeNotSupported` error carrying the unsupported type string,
and the template processor is never invoked (the call log is empty). -/
theorem createPolicy_unsupported_type
    (client : CloudletsClient) (policyName sectionName : String)
    (proc : TFPolicyData → Except String Unit)
    (mapOrder : List String → List String) (fuel : Nat) (policy : Policy)
    (hfind : (findPolicyByName client.listPolicies policyName fuel).2 =
      some (.ok policy))
    (hunsup : policy.cloudletCode ∉ supportedCloudlets) :
    createPolicy client policyName sectionName proc mapOrder fuel =
      some ([], .error (.cloudletTypeNotSupported policy.cloudletCode)) := by
  unfold createPolicy
  rw [hfind]
  simp [hunsup]

/-- Claim C8 witness: the theorem applied to a client listing one policy
of the unsupported type `CD2`. -/
theorem createPolicy_unsupported_type_witness :
    createPolicy unsupportedClient "cd_policy" "sec" (fun _ => .ok ()) id 1 =
      some ([], .error (.cloudletTypeNotSupported "CD2")) := by
  have h := createPolicy_unsupported_type unsupportedClient "cd_policy" "sec"
    (fun _ => .ok ()) id 1 unsupportedPolicy (by decide) (by decide)
  exact h

/-- Claim C10 (code-bug evidence), evaluated at the failing input: with a
production activation listed before two staging ones, the comparator of
the activation sort reads the unfiltered slice, so the function returns
the stale staging activation dated 2020 although a staging activation
dated 2022 is in the filtered list; the final conjunct shows the no-match
case yields `none` without error. -/
theorem getALBActivation_returns_stale :
    getApplicationLoadBalancerActivation albActivationsList "lb_origin"
        LoadBalancerActivationNetworkStaging = .ok (some albStaleStaging) ∧
    albNewestStaging ∈
      [albProdActivation, albStaleStaging, albNewestStaging].filter
        (fun a => a.network == LoadBalancerActivationNetworkStaging) ∧
    stringGt albNewestStaging.activatedDate albStaleStaging.activatedDate = true ∧
    getApplicationLoadBalancerActivation albActivationsList "lb_origin"
        "OTHER_NETWORK" = .ok none := by
  refine ⟨by decide, by decide, by decide, by decide⟩

end Cloudlets

namespace Dns

/-- Claim C9: `checkForResource` returns `true` exactly when the available
state (cached, or freshly read) contains a resource with exactly the
requested type and name; when nothing is cached and the state file cannot
be read or parsed it returns `false` — the resource is treated as not yet
imported — and no error is propagated (the return type is `Bool`). -/
theorem checkForResource_state_lookup :
    ∀ (cached : Option TfState) (readResult : Except String TfState)
      (rtype name : String),
      (checkForResource cached readResult rtype name = true ↔
        ∃ st, loadedState cached readResult = some st ∧
          ∃ r ∈ st.resources, r.rtype = rtype ∧ r.name = name) ∧
      (cached = none → ∀ e, readResult = .error e →
        checkForResource cached readResult rtype name = false) := by
  intro cached readResult rtype name
  constructor
  · cases hs : loadedState cached readResult with
    | none => simp [checkForResource, hs]
    | some st => simp [checkForResource, hs, List.any_eq_true]
  · rintro rfl e rfl
    simp [checkForResource, loadedState]

/-- Claim C9 witness: an unreadable state file with nothing cached yields
`false`. -/
theorem checkForResource_state_lookup_witness :
    checkForResource none (.error "no such file or directory")
      "akamai_dns_zone" "zone_example_com" = false := by
  have h := checkForResource_state_lookup none
    (.error "no such file or directory") "akamai_dns_zone" "zone_example_com"
  exact h.2 rfl "no such file or directory" rfl

end Dns

namespace Cloudlets

/-- The offsets `0, step, …, n·step` starting from `offset`, peeled once. -/
theorem range_map_mul_add (offset step n : Nat) :
    (List.range (n + 1)).map (fun j => offset + j * step) =
      offset :: (List.range n).map (fun j => offset + step + j * step) := by
  rw [List.range_succ_eq_map, List.map_cons, List.map_map]
  have h : ((fun j => offset + j * step) ∘ Nat.succ) =
      fun j => offset + step + j * step := by
    funext j
    simp only [Function.comp, Nat.succ_mul]
    ring
  rw [h]
  simp

/-- Running the `findPolicyByName` loop from any offset: with `n` full
matchless pages followed by a page holding a match, the loop issues
exactly the `n + 1` page requests at consecutive offsets and returns the
first match of the last page. -/
theorem findPolicyPages_run (pages : Nat → Except String (List Policy))
    (name : String) :
    ∀ (n offset fuel : Nat) (pg : List Policy) (p : Policy),
      n + 1 ≤ fuel →
      (∀ j, j < n → ∃ l, pages (offset + j * pageSize) = .ok l ∧
          l.length = pageSize ∧ l.find? (fun q => q.name == name) = none) →
      pages (offset + n * pageSize) = .ok pg →
      pg.find? (fun q => q.name == name) = some p →
      findPolicyPages pages name fuel offset =
        ((List.range (n + 1)).map (fun j => offset + j * pageSize),
         some (.ok p))
  | 0, offset, fuel, pg, p, hfuel, _, hpage, hfind => by
    obtain ⟨f, rfl⟩ : ∃ f, fuel = f + 1 := ⟨fuel - 1, by omega⟩
    simp only [Nat.zero_mul, Nat.add_zero] at hpage
    have h1 : List.range 1 = [0] := rfl
    simp [findPolicyPages, hpage, hfind, h1]
  | n + 1, offset, fuel, pg, p, hfuel, hfull, hpage, hfind => by
    obtain ⟨f, rfl⟩ : ∃ f, fuel = f + 1 := ⟨fuel - 1, by omega⟩
    obtain ⟨l0, hok0, hlen0, hfind0⟩ := hfull 0 (Nat.succ_pos n)
    simp only [Nat.zero_mul, Nat.add_zero] at hok0
    have hrec := findPolicyPages_run pages name n (offset + pageSize) f pg p
      (by omega)
      (fun j hj => by
        obtain ⟨l, hok, hlen, hf⟩ := hfull (j + 1) (by omega)
        refine ⟨l, ?_, hlen, hf⟩
        have harith : offset + (j + 1) * pageSize =
            offset + pageSize + j * pageSize := by ring
        rw [← harith]
        exact hok)
      (by
        have harith : offset + (n + 1) * pageSize =
            offset + pageSize + n * pageSize := by ring
        rw [← harith]
        exact hpage)
      hfind
    have hnotlt : ¬ l0.length < pageSize := by omega
    simp [findPolicyPages, hok0, hfind0, hnotlt, hrec, range_map_mul_add]

/-- Claim C1: for every paginated policy listing in which a policy named
`name` first appears on page `k` (pages before it full of non-matches),
`findPolicyByName` issues exactly `k` page requests, at offsets
`0, pageSize, …, (k-1)·pageSize` with `pageSize = 1000`, and returns the
first policy of that page whose `Name` equals the requested name
(case-sensitive), regardless of the match's position within the page. -/
theorem findPolicyByName_pagination
    (pages : Nat → Except String (List Policy)) (name : String) (k : Nat)
    (pg : List Policy) (p : Policy) (fuel : Nat) (hk : 0 < k)
    (hfuel : k ≤ fuel)
    (hfull : ∀ j, j + 1 < k → ∃ l, pages (j * pageSize) = .ok l ∧
        l.length = pageSize ∧ l.find? (fun q => q.name == name) = none)
    (hlast : pages ((k - 1) * pageSize) = .ok pg)
    (hfind : pg.find? (fun q => q.name == name) = some p) :
    findPolicyByName pages name fuel =
      ((List.range k).map (fun j => j * pageSize), some (.ok p)) := by
  obtain ⟨n, rfl⟩ : ∃ n, k = n + 1 := ⟨k - 1, by omega⟩
  have h := findPolicyPages_run pages name n 0 fuel pg p hfuel
    (fun j hj => by simpa using hfull j (by omega))
    (by simpa using hlast)
    hfind
  simpa [findPolicyByName] using h

/-- Claim C1 witness: a full first page of fillers and a short second page
holding the target; the finder issues requests at offsets 0 and 1000 and
returns the target. -/
theorem findPolicyByName_pagination_witness :
    findPolicyByName pagesTwo "test_policy" 2 =
      ([0, 1000], some (.ok targetPolicy)) := by
  have h := findPolicyByName_pagination pagesTwo "test_policy" 2
    [targetPolicy] targetPolicy 2 (by decide) (by decide)
    (fun j hj => by
      have hj0 : j = 0 := by omega
      subst hj0
      refine ⟨List.replicate pageSize fillerPolicy, by simp [pagesTwo],
        by simp, ?_⟩
      rw [List.find?_eq_none]
      intro x hx
      rw [List.mem_replicate] at hx
      rw [hx.2]
      decide)
    (by decide) (by decide)
  rw [h]
  decide

/-- Claim C3: when every page of the listing is shorter than the requested
page size and holds no match, the finder terminates after its first
request — for every fuel bound at least 1 the loop does not run out — and
returns the not-found error rather than a policy. -/
theorem findPolicyByName_short_pages_not_found
    (pages : Nat → Except String (List Policy)) (name : String)
    (hshort : ∀ offset, ∃ l, pages offset = .ok l ∧ l.length < pageSize ∧
        l.find? (fun q => q.name == name) = none)
    (fuel : Nat) (hfuel : 1 ≤ fuel) :
    findPolicyByName pages name fuel =
      ([0], some (.error (.notFound name))) := by
  obtain ⟨f, rfl⟩ : ∃ f, fuel = f + 1 := ⟨fuel - 1, by omega⟩
  obtain ⟨l, hok, hlen, hfind⟩ := hshort 0
  simp [findPolicyByName, findPolicyPages, hok, hfind, hlen]

/-- Claim C3 witness: a listing whose every page is empty yields the
not-found error after one request. -/
theorem findPolicyByName_short_pages_not_found_witness :
    findPolicyByName pagesAllEmpty "missing_policy" 1 =
      ([0], some (.error (.notFound "missing_policy"))) := by
  exact findPolicyByName_short_pages_not_found pagesAllEmpty "missing_policy"
    (fun offset => ⟨[], rfl, by decide, rfl⟩) 1 (by decide)

/-- The accumulator never decreases under `verStep`. -/
theorem le_foldl_verStep :
    ∀ (l : List PolicyVersion) (a : Int), a ≤ l.foldl verStep a
  | [], a => le_refl a
  | v :: l, a => by
    rw [List.foldl_cons]
    have h1 : a ≤ verStep a v := by
      simp only [verStep]
      split <;> omega
    exact le_trans h1 (le_foldl_verStep l (verStep a v))

/-- Every listed version is bounded by the `verStep` fold. -/
theorem mem_le_foldl_verStep :
    ∀ (l : List PolicyVersion) (a : Int) (v : PolicyVersion), v ∈ l →
      v.version ≤ l.foldl verStep a
  | w :: l, a, v, hv => by
    rw [List.foldl_cons]
    rcases List.mem_cons.mp hv with h | h
    · subst h
      have h1 : v.version ≤ verStep a v := by
        simp only [verStep]
        split <;> omega
      exact le_trans h1 (le_foldl_verStep l (verStep a v))
    · exact mem_le_foldl_verStep l (verStep a w) v h

/-- The `verStep` fold is the accumulator or some listed version. -/
theorem foldl_verStep_mem :
    ∀ (l : List PolicyVersion) (a : Int),
      l.foldl verStep a = a ∨ ∃ v ∈ l, l.foldl verStep a = v.version
  | [], _ => .inl rfl
  | v :: l, a => by
    rw [List.foldl_cons]
    rcases foldl_verStep_mem l (verStep a v) with h | ⟨w, hw, hweq⟩
    · rw [h]
      by_cases hlt : a < v.version
      · exact .inr ⟨v, List.mem_cons_self v l, by simp [verStep, hlt]⟩
      · exact .inl (by simp [verStep, hlt])
    · exact .inr ⟨w, List.mem_cons_of_mem v hw, hweq⟩

/-- One peel of the pages of `List.range (n + 1)`. -/
theorem range_map_flatten_succ (pgs : Nat → List PolicyVersion) (n : Nat) :
    ((List.range (n + 1)).map pgs).flatten =
      pgs 0 ++ ((List.range n).map (fun j => pgs (j + 1))).flatten := by
  rw [List.range_succ_eq_map, List.map_cons, List.map_map]
  simp only [List.flatten_cons]
  rfl

/-- Running the `getLatestPolicyVersion` loop from any offset: with `n`
full pages followed by a short nonempty page, the loop requests the
`n + 1` consecutive offsets and selects the `verStep` fold over the
concatenation of all fetched pages. -/
theorem getLatestVersionLoop_run
    (pages : Nat → Except String (List PolicyVersion)) :
    ∀ (n : Nat) (pgs : Nat → List PolicyVersion) (offset fuel : Nat) (a : Int),
      n + 1 ≤ fuel →
      (∀ j, j ≤ n → pages (offset + j * pageSize) = .ok (pgs j)) →
      (∀ j, j < n → (pgs j).length = pageSize) →
      (pgs n).length < pageSize →
      (pgs n).length ≠ 0 →
      getLatestVersionLoop pages fuel offset a =
        ((List.range (n + 1)).map (fun j => offset + j * pageSize),
         some (.ok (((List.range (n + 1)).map pgs).flatten.foldl verStep a)))
  | 0, pgs, offset, fuel, a, hfuel, hok, _, hlast, hne => by
    obtain ⟨f, rfl⟩ : ∃ f, fuel = f + 1 := ⟨fuel - 1, by omega⟩
    have hok0 := hok 0 (le_refl 0)
    simp only [Nat.zero_mul, Nat.add_zero] at hok0
    have h1 : List.range 1 = [0] := rfl
    simp [getLatestVersionLoop, hok0, hne, hlast, h1]
  | n + 1, pgs, offset, fuel, a, hfuel, hok, hfull, hlast, hne => by
    obtain ⟨f, rfl⟩ : ∃ f, fuel = f + 1 := ⟨fuel - 1, by omega⟩
    have hok0 := hok 0 (by omega)
    simp only [Nat.zero_mul, Nat.add_zero] at hok0
    have hlen0 : (pgs 0).length = pageSize := hfull 0 (by omega)
    have hrec := getLatestVersionLoop_run pages n (fun j => pgs (j + 1))
      (offset + pageSize) f ((pgs 0).foldl verStep a)
      (by omega)
      (fun j hj => by
        have h := hok (j + 1) (by omega)
        have harith : offset + (j + 1) * pageSize =
            offset + pageSize + j * pageSize := by ring
        rw [← harith]
        exact h)
      (fun j hj => hfull (j + 1) (by omega))
      hlast hne
    have hne0 : (pgs 0).length ≠ 0 := by
      rw [hlen0]
      decide
    have hnotlt : ¬ (pgs 0).length < pageSize := by omega
    simp [getLatestVersionLoop, hok0, hne0, hnotlt, hrec, range_map_mul_add,
      range_map_flatten_succ, List.foldl_append]

/-- Claim C2 (amended): over a paginated version listing whose fetched
pages are all nonempty (the short final page included), the resolver
selects the maximum version number seen across **all** pages fetched —
not just the last page — issues the one `GetPolicyVersion` call for it and
returns that call's outcome (full body, or propagated detail-fetch
error); a fetched page that is empty — in particular an empty version
list — yields the no-versions error instead, and a page-fetch error is
propagated as-is. -/
theorem getLatestPolicyVersion_spec :
    (∀ (pages : Nat → Except String (List PolicyVersion))
       (detail : Int → Except String PolicyVersion)
       (pgs : Nat → List PolicyVersion) (k fuel : Nat),
       0 < k → k ≤ fuel →
       (∀ j, j < k → pages (j * pageSize) = .ok (pgs j)) →
       (∀ j, j + 1 < k → (pgs j).length = pageSize) →
       (pgs (k - 1)).length < pageSize →
       (pgs (k - 1)).length ≠ 0 →
       (∀ j, j < k → ∀ v ∈ pgs j, 1 ≤ v.version) →
       ∃ m, m ∈ ((List.range k).map pgs).flatten.map (fun v => v.version) ∧
         (∀ x ∈ ((List.range k).map pgs).flatten.map (fun v => v.version),
           x ≤ m) ∧
         getLatestPolicyVersion pages detail fuel =
           ((List.range k).map (fun j => j * pageSize),
            some (liftDetail (detail m)))) ∧
    (∀ (pages : Nat → Except String (List PolicyVersion))
       (detail : Int → Except String PolicyVersion) (fuel : Nat),
       pages 0 = .ok ([] : List PolicyVersion) →
       getLatestPolicyVersion pages detail (fuel + 1) =
         ([0], some (.error .noVersions))) ∧
    (∀ (pages : Nat → Except String (List PolicyVersion))
       (fuel offset : Nat) (a : Int) (e : String),
       pages offset = .error e →
       getLatestVersionLoop pages (fuel + 1) offset a =
         ([offset], some (.error (.api e)))) := by
  refine ⟨?_, ?_, ?_⟩
  · intro pages detail pgs k fuel hk hfuel hok hfull hlast hne hpos
    obtain ⟨n, rfl⟩ : ∃ n, k = n + 1 := ⟨k - 1, by omega⟩
    have hrun := getLatestVersionLoop_run pages n pgs 0 fuel 0 hfuel
      (fun j hj => by simpa using hok j (by omega))
      (fun j hj => hfull j (by omega))
      (by simpa using hlast) (by simpa using hne)
    refine ⟨((List.range (n + 1)).map pgs).flatten.foldl verStep 0, ?_, ?_, ?_⟩
    · rcases foldl_verStep_mem (((List.range (n + 1)).map pgs).flatten) 0
        with h | ⟨v, hv, hveq⟩
      · exfalso
        obtain ⟨v0, hv0⟩ := List.exists_mem_of_ne_nil (pgs n)
          (fun hnil => by
            apply hne
            simp [hnil])
        have hmem : v0 ∈ ((List.range (n + 1)).map pgs).flatten := by
          refine List.mem_flatten.mpr ⟨pgs n, List.mem_map.mpr ⟨n, ?_, rfl⟩, hv0⟩
          exact List.mem_range.mpr (by omega)
        have h1 := mem_le_foldl_verStep
          (((List.range (n + 1)).map pgs).flatten) 0 v0 hmem
        have h2 := hpos n (by omega) v0 hv0
        omega
      · exact List.mem_map.mpr ⟨v, hv, hveq.symm⟩
    · intro x hx
      obtain ⟨v, hv, rfl⟩ := List.mem_map.mp hx
      exact mem_le_foldl_verStep _ 0 v hv
    · simp only [getLatestPolicyVersion, hrun]
      simp
  · intro pages detail fuel h0
    simp [getLatestPolicyVersion, getLatestVersionLoop, h0]
  · intro pages fuel offset a e h
    simp [getLatestVersionLoop, h]

/-- Claim C2 witness: the amended theorem applied to the one-page listing
with versions 3 and 7 — the selected version is a listed one, bounds all
listed versions, and the resolver returns the detail fetch of it. -/
theorem getLatestPolicyVersion_spec_witness :
    ∃ m : Int,
      m ∈ ((List.range 1).map vpagesShortList).flatten.map
        (fun v => v.version) ∧
      (∀ x ∈ ((List.range 1).map vpagesShortList).flatten.map
        (fun v => v.version), x ≤ m) ∧
      getLatestPolicyVersion vpagesShort detailAlwaysOk 1 =
        ((List.range 1).map (fun j => j * pageSize),
         some (liftDetail (detailAlwaysOk m))) := by
  exact getLatestPolicyVersion_spec.1 vpagesShort detailAlwaysOk
    vpagesShortList 1 1 (by decide) (by decide)
    (fun j hj => rfl)
    (fun j hj => absurd hj (by omega))
    (by decide) (by decide)
    (fun j hj v hv => by
      simp [vpagesShortList] at hv
      rcases hv with rfl | rfl <;> decide)

/-- Claim C2 counterexample: a listing holding exactly `pageSize`
versions.  The first page is full (so the loop continues), the second page
is empty, and `getLatestPolicyVersion` returns the no-versions error —
although the version list is nonempty and the detail fetch of the maximum
version 1 would have succeeded, where the claim requires the detail fetch
of the maximum version to be issued and returned. -/
theorem getLatestPolicyVersion_full_then_empty :
    vpagesFullThenEmpty 0 = .ok (List.replicate pageSize versionOne) ∧
    (List.replicate pageSize versionOne).length = pageSize ∧
    versionOne.version = 1 ∧
    detailAlwaysOk 1 = .ok ⟨5, 1, "full body", "1.0", []⟩ ∧
    getLatestPolicyVersion vpagesFullThenEmpty detailAlwaysOk 2 =
      ([0, pageSize], some (.error .noVersions)) := by
  refine ⟨rfl, by simp, rfl, rfl, ?_⟩
  set_option maxRecDepth 20000 in decide

end Cloudlets
